import Mathlib

/-
Shallow embedding of mlir/lib/IR/ExtensibleDialect.cpp (runtime-extensible
dialects: dynamic type definitions, the interned DynamicType values, dynamic
operation definitions, and the ExtensibleDialect registry).

Modelling conventions:
* `Attribute` values are opaque interned MLIR attributes; their equality is
  identity, modelled by `Nat`.
* The token stream consumed by `DialectAsmParser` and produced by
  `DialectAsmPrinter` is modelled as `List Token`; the parser primitives
  `parseOptionalLess` / `parseOptionalGreater` / `parseComma` /
  `parseAttribute` consume tokens from the front (external TokenStream
  contract of the host framework).
* A `Dialect *` is identified by its namespace string (unique within one
  MLIRContext); a `DynamicTypeDefinition *` is identified by its `TypeID`,
  which `MLIRContext::allocateTypeID()` allocates fresh for each constructed
  definition, so TypeID equality coincides with pointer equality of
  definitions.
* C++ `assert` preconditions are modelled by returning `Option.none`
  (a fatal precondition violation) from the guarded function.
-/

set_option autoImplicit false

/-- Opaque interned attribute values; equality is identity. -/
abbrev Attribute := Nat

/-- One token of the dialect assembly stream: the `<` / `>` parameter list
delimiters, the comma separator, an attribute value (parsed or printed
atomically by the host's `parseAttribute` primitive / `<<`), and a bare
identifier (used when printing a type name). -/
inductive Token where
  | less
  | greater
  | comma
  | attr (a : Attribute)
  | ident (s : String)
deriving DecidableEq

/-- Host primitive `DialectAsmParser::parseAttribute`: consumes one attribute
value from the front of the stream, failing on anything else. -/
def parseAttribute : List Token → Option (Attribute × List Token)
  | Token.attr a :: rest => some (a, rest)
  | _ => none

/-- The `while (parser.parseOptionalGreater())` loop of the default type
parameter parse hook (ExtensibleDialect.cpp lines 39-44): while the next token
is not `>`, consume a comma and one attribute and append it; exit consuming
the `>`. The comma-then-attribute step is fused into one pattern (it is
exactly `parseComma` followed by `parseAttribute`) so that the recursion is
structural. -/
def parseParamsLoop : List Token → List Attribute → Option (List Attribute × List Token)
  | Token.greater :: rest, acc => some (acc, rest)
  | Token.comma :: Token.attr a :: rest, acc => parseParamsLoop rest (acc ++ [a])
  | _, _ => none

/-- Default parse hook installed by the verifier-only
`DynamicTypeDefinition::get` (lines 28-47).
`if (parser.parseOptionalLess() || !parser.parseOptionalGreater()) return success();`
succeeds with no parameters when the next token is not `<`, and also when `<`
is immediately followed by `>`; otherwise one attribute is parsed and the
comma-separated loop runs until the closing `>`. -/
def defaultTypeParseFn : List Token → Option (List Attribute × List Token)
  | Token.less :: Token.greater :: rest => some ([], rest)
  | Token.less :: Token.attr a :: rest => parseParamsLoop rest [a]
  | Token.less :: _ => none
  | toks => some ([], toks)

/-- `llvm::interleaveComma`: the parameters separated by commas. -/
def interleaveComma : List Attribute → List Token
  | [] => []
  | [a] => [Token.attr a]
  | a :: rest => Token.attr a :: Token.comma :: interleaveComma rest

/-- Default print hook installed by the verifier-only
`DynamicTypeDefinition::get` (lines 49-56): nothing for an empty parameter
list, otherwise `<` params `>` with commas interleaved. -/
def defaultTypePrintFn (params : List Attribute) : List Token :=
  if params.isEmpty then []
  else Token.less :: (interleaveComma params ++ [Token.greater])

/-- `DynamicTypeDefinition`: name, owning dialect (by namespace), the three
hooks, and the fresh `TypeID` allocated at construction. The verifier is
modelled as a boolean predicate on the parameter list (diagnostics emission
aside); the parse hook returns the parsed parameters and the remaining
stream, or `none` on failure; the print hook emits tokens. -/
structure DynamicTypeDefinition where
  name : String
  dialect : String
  verifier : List Attribute → Bool
  parser : List Token → Option (List Attribute × List Token)
  printer : List Attribute → List Token
  typeID : Nat

/-- `llvm::StringRef::contains(char)`: whether the character occurs in the
string, modelled over the string's character list. -/
def strContains (s : String) (c : Char) : Bool := s.data.contains c

/-- The 5-hook `DynamicTypeDefinition` constructor (lines 74-85): stores the
fields and asserts that the name is not prefixed by the dialect name
(contains no `.`). `tid` is the TypeID freshly allocated by
`dialect->getContext()->allocateTypeID()`. -/
def DynamicTypeDefinition.ctor (dialect name : String)
    (verifier : List Attribute → Bool)
    (parser : List Token → Option (List Attribute × List Token))
    (printer : List Attribute → List Token)
    (tid : Nat) : Option DynamicTypeDefinition :=
  if strContains name '.' then none
  else some { name := name, dialect := dialect, verifier := verifier,
              parser := parser, printer := printer, typeID := tid }

/-- Verifier-only `DynamicTypeDefinition::get` (lines 23-63): constructs the
definition (the 2-argument constructor, lines 87-94, carries the same
no-`.`-in-name assertion) and installs the default parse and print hooks. -/
def DynamicTypeDefinition.getDefault (dialect name : String)
    (verifier : List Attribute → Bool) (tid : Nat) :
    Option DynamicTypeDefinition :=
  DynamicTypeDefinition.ctor dialect name verifier
    defaultTypeParseFn defaultTypePrintFn tid

/-- First-match lookup in an association list (the model of the storage
uniquer's hash map and of the dialect's DenseMap/StringMap indices). -/
def lookupKey {κ α : Type} [DecidableEq κ] (k : κ) : List (κ × α) → Option α
  | [] => none
  | (k', v) :: rest => if k' = k then some v else lookupKey k rest

/-- The interning key of `detail::DynamicTypeStorage` (lines 104-131):
`KeyTy = std::pair<DynamicTypeDefinition *, ArrayRef<Attribute>>`, compared
by definition identity (its unique TypeID) and element-wise parameter
equality. -/
abbrev TypeKey := Nat × List Attribute

/-- Modelled from the spec: the `detail::TypeUniquer` / `StorageUniquer`
cache that backs `DynamicType` interning lives outside src/ (only
`DynamicTypeStorage` and the `TypeUniquer::getWithTypeID` call sites are in
this file). Spec §4.2: a content-addressed cache mapping
`(kind-identity, parameter-list)` to one canonical arena-owned instance.
Instances are arena records never individually freed; instance identity is
modelled by the allocation index `nextId`. -/
structure InternerState where
  entries : List (TypeKey × Nat)
  nextId : Nat

/-- The interner of a fresh MLIRContext: no instances allocated yet. -/
def InternerState.empty : InternerState := ⟨[], 0⟩

/-- Well-formedness of the interner cache: every allocated instance index is
below the allocation counter, and distinct cached entries never share an
instance (each canonical instance is owned by exactly one key). -/
def InternerState.wf (s : InternerState) : Prop :=
  (∀ e ∈ s.entries, e.2 < s.nextId) ∧
  (∀ e1 ∈ s.entries, ∀ e2 ∈ s.entries, e1.2 = e2.2 → e1.1 = e2.1)

/-- Modelled from the spec: `StorageUniquer::get` (spec §4.2) — on a cache
hit return the existing canonical instance unchanged; on a miss allocate a
fresh arena instance, insert it under the key, and return it. -/
def internerGet (s : InternerState) (k : TypeKey) : Nat × InternerState :=
  match lookupKey k s.entries with
  | some v => (v, s)
  | none => (s.nextId, ⟨(k, s.nextId) :: s.entries, s.nextId + 1⟩)

/-- `DynamicType::get` (lines 135-140): unchecked canonical constructor,
delegating to the type uniquer with the definition's TypeID and the
parameter list. -/
def DynamicType.get (typeDef : DynamicTypeDefinition) (params : List Attribute)
    (s : InternerState) : Nat × InternerState :=
  internerGet s (typeDef.typeID, params)

/-- `DynamicType::getChecked` (lines 142-149): run the definition's verifier
first; on failure return the null value `{}` without touching the uniquer;
on success behave as `get`. -/
def DynamicType.getChecked (typeDef : DynamicTypeDefinition)
    (params : List Attribute) (s : InternerState) :
    Option Nat × InternerState :=
  if typeDef.verifier params then
    (some (DynamicType.get typeDef params s).1, (DynamicType.get typeDef params s).2)
  else (none, s)

/-- `DynamicType::parse` (lines 159-170): run the definition's parse hook;
on hook failure return failure. Otherwise call `getChecked` on the parsed
parameters and return `success()` unconditionally — the out-parameter
`parsedType` holds the null value when the verifier rejected. -/
def DynamicType.parse (typeDef : DynamicTypeDefinition) (toks : List Token)
    (s : InternerState) : Option (Option Nat × List Token × InternerState) :=
  match typeDef.parser toks with
  | none => none
  | some (params, rest) =>
    some ((DynamicType.getChecked typeDef params s).1, rest,
          (DynamicType.getChecked typeDef params s).2)

/-- `DynamicType::print` (lines 172-175): write the definition's name, then
invoke the definition's print hook on the instance's parameters. -/
def DynamicType.print (typeDef : DynamicTypeDefinition)
    (params : List Attribute) : List Token :=
  Token.ident typeDef.name :: typeDef.printer params

/-- Output of an operation print hook. `generic op` is the result of the
host primitive `OpAsmPrinter::printGenericOp` — the generic structural dump
of the operation, available for every well-formed operation (external
collaborator; operations themselves are opaque here, identified by `Nat`). -/
inductive PrintOut where
  | generic (op : Nat)
deriving DecidableEq

/-- Modelled from the spec: `OpAsmPrinter::printGenericOp` (host framework
primitive, spec §4.3) — the generic structural dump; it always succeeds. -/
def printGenericOp (op : Nat) : PrintOut := PrintOut.generic op

/-- Default operation parse hook (lines 194-198): emit an error diagnostic at
the current location and return failure, for any input stream. The result is
the list of emitted diagnostics together with `none` (failure). -/
def defaultOpParseFn (_toks : List Token) : List String × Option Unit :=
  (["dynamic operation do not define any parser function"], none)

/-- Default operation print hook (lines 200-202): fall back to the generic
structural dump. -/
def defaultOpPrintFn (op : Nat) : PrintOut := printGenericOp op

/-- `DynamicOpDefinition`: fresh TypeID, the fully qualified name, the owning
dialect (by namespace), and the three hooks, exactly the fields set by the
constructor (lines 181-189). -/
structure DynamicOpDefinition where
  typeID : Nat
  name : String
  dialect : String
  verifyFn : Nat → Bool
  parseFn : List Token → List String × Option Unit
  printFn : Nat → PrintOut

/-- The `DynamicOpDefinition` constructor (lines 181-189): the stored name is
computed once, at construction, as `dialect->getNamespace() + "." + name`.
Note: unlike the `DynamicTypeDefinition` constructors, this constructor
carries no assertion. -/
def DynamicOpDefinition.ctor (name dialect : String) (verifyFn : Nat → Bool)
    (parseFn : List Token → List String × Option Unit)
    (printFn : Nat → PrintOut) (tid : Nat) : DynamicOpDefinition :=
  { typeID := tid, name := dialect ++ "." ++ name, dialect := dialect,
    verifyFn := verifyFn, parseFn := parseFn, printFn := printFn }

/-- Verifier-only `DynamicOpDefinition::get` (lines 191-207): installs the
always-failing default parse hook and the generic-dump print hook. This
overload performs no separator check on `name`. -/
def DynamicOpDefinition.get (name dialect : String) (verifyFn : Nat → Bool)
    (tid : Nat) : DynamicOpDefinition :=
  DynamicOpDefinition.ctor name dialect verifyFn
    defaultOpParseFn defaultOpPrintFn tid

/-- Five-argument `DynamicOpDefinition::get` (lines 209-219): asserts that
the unqualified name is not already prefixed by the dialect name (contains
no `.`), then constructs. -/
def DynamicOpDefinition.get5 (name dialect : String) (verifyFn : Nat → Bool)
    (parseFn : List Token → List String × Option Unit)
    (printFn : Nat → PrintOut) (tid : Nat) : Option DynamicOpDefinition :=
  if strContains name '.' then none
  else some (DynamicOpDefinition.ctor name dialect verifyFn parseFn printFn tid)

/-- The dialect record: namespace name, the registered dialect interfaces
(capability markers such as `IsExtensibleDialect`), and the two indices over
the registered dynamic type definitions (`dynTypes` keyed by TypeID,
`nameToDynTypes` keyed by unqualified name). -/
structure Dialect where
  name : String
  interfaces : List String
  dynTypes : List (Nat × DynamicTypeDefinition)
  nameToDynTypes : List (String × DynamicTypeDefinition)

/-- `ExtensibleDialect::ExtensibleDialect` (lines 232-236): constructs the
base `Dialect` and immediately registers the `IsExtensibleDialect` interface
via `addInterfaces<IsExtensibleDialect>()`. -/
def ExtensibleDialect.new (name : String) : Dialect :=
  { name := name, interfaces := ["IsExtensibleDialect"],
    dynTypes := [], nameToDynTypes := [] }

/-- `ExtensibleDialect::classof` (lines 287-289): a dialect is extensible
exactly when it carries the registered `IsExtensibleDialect` interface. -/
def ExtensibleDialect.classof (d : Dialect) : Bool :=
  d.interfaces.contains "IsExtensibleDialect"

/-- `ExtensibleDialect::addDynamicType` (lines 238-263). The three
assertions — the definition's stated dialect must be the registering
dialect, the TypeID must be fresh in `dynTypes`, and the name must be fresh
in `nameToDynTypes` — are modelled as `none` (fatal precondition violation).
On success the definition is inserted in both indices. (The final
`AbstractType` / type-uniquer wiring acts on the external context, not on
the dialect record.) -/
def ExtensibleDialect.addDynamicType (d : Dialect)
    (t : DynamicTypeDefinition) : Option Dialect :=
  if t.dialect ≠ d.name then none
  else if (lookupKey t.typeID d.dynTypes).isSome then none
  else if (lookupKey t.name d.nameToDynTypes).isSome then none
  else some { d with dynTypes := (t.typeID, t) :: d.dynTypes,
                     nameToDynTypes := (t.name, t) :: d.nameToDynTypes }

/-- `ExtensibleDialect::addDynamicOp` (lines 265-285): asserts that the
definition's stated dialect is the registering dialect, then installs the
hooks into the global `AbstractOperation` catalog (an external collaborator);
the dialect record itself is left unchanged. -/
def ExtensibleDialect.addDynamicOp (d : Dialect) (t : DynamicOpDefinition) :
    Option Dialect :=
  if t.dialect ≠ d.name then none
  else some d

/-- Modelled from the spec: `lookupTypeDefinition(name)` is declared in
ExtensibleDialect.h, outside src/ (spec §4.6: namespace-local name lookup in
the by-name index, used by a generic parser to route unrecognized type names
to the dynamic subsystem). -/
def ExtensibleDialect.lookupTypeDefinition (d : Dialect) (typeName : String) :
    Option DynamicTypeDefinition :=
  lookupKey typeName d.nameToDynTypes

/-- The tri-state result of `parseOptionalDynamicType`: no dynamic type with
that name is registered, a parse error, or success carrying the parsed value
(`none` inside `ok` is the null type left by a verifier rejection). -/
inductive OptParse where
  | notApplicable
  | failed
  | ok (t : Option Nat) (rest : List Token) (s : InternerState)

/-- `ExtensibleDialect::parseOptionalDynamicType` (lines 291-303): look the
name up; if unregistered return the empty optional, otherwise run
`DynamicType::parse` and surface its result. -/
def ExtensibleDialect.parseOptionalDynamicType (d : Dialect)
    (typeName : String) (toks : List Token) (s : InternerState) : OptParse :=
  match ExtensibleDialect.lookupTypeDefinition d typeName with
  | some typeDef =>
    match DynamicType.parse typeDef toks s with
    | none => OptParse.failed
    | some (r, rest, s') => OptParse.ok r rest s'
  | none => OptParse.notApplicable

/-- A sample dynamic type definition, `vec` in dialect `dyn`, with the
default hooks and an always-accepting verifier. -/
def vecDef : DynamicTypeDefinition :=
  { name := "vec", dialect := "dyn", verifier := fun _p => true,
    parser := defaultTypeParseFn, printer := defaultTypePrintFn, typeID := 0 }

theorem lookupKey_mem {κ α : Type} [DecidableEq κ] {k : κ} {v : α} :
    ∀ {l : List (κ × α)}, lookupKey k l = some v → (k, v) ∈ l := by
  intro l
  induction l with
  | nil => intro h; simp [lookupKey] at h
  | cons e rest ih =>
    intro h
    obtain ⟨k', v'⟩ := e
    simp only [lookupKey] at h
    split at h
    · next heq =>
      injection h with h
      subst heq
      subst h
      exact List.mem_cons_self _ _
    · exact List.mem_cons_of_mem _ (ih h)

theorem internerGet_hit {s : InternerState} {k : TypeKey} {v : Nat}
    (h : lookupKey k s.entries = some v) : internerGet s k = (v, s) := by
  simp [internerGet, h]

theorem internerGet_miss {s : InternerState} {k : TypeKey}
    (h : lookupKey k s.entries = none) :
    internerGet s k = (s.nextId, ⟨(k, s.nextId) :: s.entries, s.nextId + 1⟩) := by
  simp [internerGet, h]

/-- Interning is stable: asking again for a key just interned returns the
same canonical instance and leaves the cache unchanged. -/
theorem internerGet_idem (s : InternerState) (k : TypeKey) :
    internerGet (internerGet s k).2 k = ((internerGet s k).1, (internerGet s k).2) := by
  rcases h : lookupKey k s.entries with _ | v
  · rw [internerGet_miss h]
    simp [internerGet, lookupKey]
  · rw [internerGet_hit h, internerGet_hit h]

/-- Well-formedness of the interner cache is preserved by `internerGet`, so
every cache reachable from the empty one is well-formed. -/
theorem internerGet_wf (s : InternerState) (hwf : s.wf) (k : TypeKey) :
    (internerGet s k).2.wf := by
  rcases h : lookupKey k s.entries with _ | v
  · rw [internerGet_miss h]
    obtain ⟨hbound, hinj⟩ := hwf
    constructor
    · intro e he
      rcases List.mem_cons.mp he with rfl | he'
      · simp
      · exact Nat.lt_succ_of_lt (hbound e he')
    · intro e1 he1 e2 he2 hv
      rcases List.mem_cons.mp he1 with rfl | he1' <;>
        rcases List.mem_cons.mp he2 with rfl | he2'
      · rfl
      · exact absurd hv (by have := hbound e2 he2'; omega)
      · exact absurd hv (by have := hbound e1 he1'; omega)
      · exact hinj e1 he1' e2 he2' hv
  · rw [internerGet_hit h]
    exact hwf

theorem InternerState.empty_wf : InternerState.empty.wf :=
  ⟨fun e he => by simp [InternerState.empty] at he,
   fun e1 he1 => by simp [InternerState.empty] at he1⟩

/-- Core identity property of the interner: for a well-formed cache, two
(sequential) `get` calls return the identical instance exactly when their
keys are equal. -/
theorem internerGet_identity_iff (s : InternerState) (hwf : s.wf)
    (k1 k2 : TypeKey) :
    (internerGet (internerGet s k1).2 k2).1 = (internerGet s k1).1 ↔ k2 = k1 := by
  obtain ⟨hbound, hinj⟩ := hwf
  rcases h1 : lookupKey k1 s.entries with _ | v1
  · rw [internerGet_miss h1]
    by_cases hk : k1 = k2
    · subst hk
      simp [internerGet, lookupKey]
    · have hstep : lookupKey k2 ((k1, s.nextId) :: s.entries) = lookupKey k2 s.entries := by
        simp [lookupKey, hk]
      rcases h2 : lookupKey k2 s.entries with _ | v2
      · have hmiss : lookupKey k2
            (InternerState.mk ((k1, s.nextId) :: s.entries) (s.nextId + 1)).entries = none := by
          rw [hstep] at *
          exact hstep.trans h2
        rw [internerGet_miss hmiss]
        exact iff_of_false (by simp) (fun h => hk h.symm)
      · have hhit : lookupKey k2
            (InternerState.mk ((k1, s.nextId) :: s.entries) (s.nextId + 1)).entries = some v2 :=
          hstep.trans h2
        rw [internerGet_hit hhit]
        refine iff_of_false ?_ (fun h => hk h.symm)
        have := hbound (k2, v2) (lookupKey_mem h2)
        simp only at this
        omega
  · rw [internerGet_hit h1]
    rcases h2 : lookupKey k2 s.entries with _ | v2
    · rw [internerGet_miss h2]
      refine iff_of_false ?_ ?_
      · have := hbound (k1, v1) (lookupKey_mem h1)
        simp only at this
        omega
      · intro h
        subst h
        rw [h1] at h2
        exact Option.noConfusion h2
    · rw [internerGet_hit h2]
      constructor
      · intro hv
        have := hinj (k2, v2) (lookupKey_mem h2) (k1, v1) (lookupKey_mem h1) hv
        simpa using this
      · intro h
        subst h
        rw [h1] at h2
        injection h2 with h2
        exact h2.symm

/-- C1: for every pair of definitions and parameter lists, `DynamicType::get`
returns the identical (same-identity) canonical instance if and only if the
definitions are the same (pointer identity, i.e. equal allocator-unique
TypeIDs) and the parameter lists are element-wise equal; in particular equal
arguments yield the same cached instance and differing arguments yield
distinct instances. Stated over any well-formed interner cache, for the
second call run after the first. -/
theorem dynamicType_get_identity_iff (s : InternerState) (hwf : s.wf)
    (d1 d2 : DynamicTypeDefinition) (p1 p2 : List Attribute) :
    (DynamicType.get d2 p2 (DynamicType.get d1 p1 s).2).1 = (DynamicType.get d1 p1 s).1 ↔
      (d1.typeID = d2.typeID ∧ p1 = p2) := by
  unfold DynamicType.get
  rw [internerGet_identity_iff s hwf (d1.typeID, p1) (d2.typeID, p2)]
  simp only [Prod.mk.injEq]
  constructor
  · intro h
    exact ⟨h.1.symm, h.2.symm⟩
  · intro h
    exact ⟨h.1.symm, h.2.symm⟩

/-- Witness for C1: on the empty cache, two `get` calls for `vec` with the
same parameter list `[1, 2]` return the same canonical instance. -/
theorem dynamicType_get_identity_iff_witness :
    (DynamicType.get vecDef [1, 2] (DynamicType.get vecDef [1, 2] InternerState.empty).2).1 =
      (DynamicType.get vecDef [1, 2] InternerState.empty).1 :=
  (dynamicType_get_identity_iff InternerState.empty InternerState.empty_wf
    vecDef vecDef [1, 2] [1, 2]).mpr ⟨rfl, rfl⟩

/-- A sample dynamic type definition whose verifier accepts exactly the
non-empty parameter lists. -/
def gateDef : DynamicTypeDefinition :=
  { name := "gate", dialect := "dyn", verifier := fun p => !p.isEmpty,
    parser := defaultTypeParseFn, printer := defaultTypePrintFn, typeID := 1 }

/-- C2: when the definition's verifier rejects `p`, `getChecked` returns the
null value and leaves the interner cache untouched (no entry for `(D, p)` is
inserted); a later `getChecked` on the post-failure state with a passing
`p'` succeeds, exactly as it would have on the original state. -/
theorem dynamicType_getChecked_gating (d : DynamicTypeDefinition)
    (p p' : List Attribute) (s : InternerState)
    (h : d.verifier p = false) (h' : d.verifier p' = true) :
    DynamicType.getChecked d p s = (none, s) ∧
    (DynamicType.getChecked d p' (DynamicType.getChecked d p s).2).1 =
      some (DynamicType.get d p' s).1 := by
  constructor
  · simp [DynamicType.getChecked, h]
  · simp [DynamicType.getChecked, h, h']

/-- Witness for C2: `gate` rejects `[]` leaving the empty cache unchanged,
and afterwards still accepts `[5]`. -/
theorem dynamicType_getChecked_gating_witness :
    DynamicType.getChecked gateDef [] InternerState.empty = (none, InternerState.empty) ∧
    (DynamicType.getChecked gateDef [5]
        (DynamicType.getChecked gateDef [] InternerState.empty).2).1 =
      some (DynamicType.get gateDef [5] InternerState.empty).1 :=
  dynamicType_getChecked_gating gateDef [] [5] InternerState.empty rfl rfl

/-- A sample dynamic type definition whose verifier rejects every parameter
list. -/
def rejectAllDef : DynamicTypeDefinition :=
  { name := "rej", dialect := "dyn", verifier := fun _p => false,
    parser := defaultTypeParseFn, printer := defaultTypePrintFn, typeID := 2 }

/-- C3 counterexample: for `rejectAllDef` and the empty stream, the parse
hook succeeds with an empty parameter list, the verifier rejects it — yet
`DynamicType::parse` returns `success()` (with the null type in the out
parameter), not failure as the claim states. -/
theorem dynamicType_parse_verify_counterexample :
    rejectAllDef.verifier [] = false ∧
    DynamicType.parse rejectAllDef [] InternerState.empty =
      some (none, [], InternerState.empty) :=
  ⟨rfl, rfl⟩

/-- C3 (amended): `DynamicType::parse` returns failure when the definition's
parse hook fails; when the hook succeeds but the verifier rejects the parsed
parameter list, a diagnostic is emitted and parse returns SUCCESS carrying
the null instance, the cache untouched — so a verifier rejection is not
surfaced as a parse failure. -/
theorem dynamicType_parse_amended (d : DynamicTypeDefinition)
    (toks : List Token) (s : InternerState) :
    (d.parser toks = none → DynamicType.parse d toks s = none) ∧
    (∀ ps rest, d.parser toks = some (ps, rest) → d.verifier ps = false →
      DynamicType.parse d toks s = some (none, rest, s)) := by
  constructor
  · intro h
    simp [DynamicType.parse, h]
  · intro ps rest h hv
    simp [DynamicType.parse, h, DynamicType.getChecked, hv]

/-- Witness for C3 (amended): a lone `<` makes the default hook fail, so
parse fails; on the stream `[attr 3]` the hook succeeds with no parameters,
`rejectAllDef`'s verifier rejects, and parse succeeds with the null type. -/
theorem dynamicType_parse_amended_witness :
    DynamicType.parse rejectAllDef [Token.less] InternerState.empty = none ∧
    DynamicType.parse rejectAllDef [Token.attr 3] InternerState.empty =
      some (none, [Token.attr 3], InternerState.empty) :=
  ⟨(dynamicType_parse_amended rejectAllDef [Token.less] InternerState.empty).1 rfl,
   (dynamicType_parse_amended rejectAllDef [Token.attr 3] InternerState.empty).2
     [] [Token.attr 3] rfl rfl⟩

/-- The token run `, b, c, ...` that the interleaved printing produces for
the second and later parameters. -/
def commaTail : List Attribute → List Token
  | [] => []
  | a :: rest => Token.comma :: Token.attr a :: commaTail rest

theorem interleaveComma_eq : ∀ (xs : List Attribute) (a : Attribute),
    interleaveComma (a :: xs) = Token.attr a :: commaTail xs
  | [], _a => rfl
  | b :: ys, a => by
    rw [show interleaveComma (a :: b :: ys)
          = Token.attr a :: Token.comma :: interleaveComma (b :: ys) from rfl,
        interleaveComma_eq ys b]
    rfl

theorem parseParamsLoop_commaTail :
    ∀ (xs acc : List Attribute) (tail : List Token),
    parseParamsLoop (commaTail xs ++ Token.greater :: tail) acc = some (acc ++ xs, tail)
  | [], acc, tail => by simp [commaTail, parseParamsLoop]
  | b :: ys, acc, tail => by
    rw [show commaTail (b :: ys) ++ Token.greater :: tail
          = Token.comma :: Token.attr b :: (commaTail ys ++ Token.greater :: tail) from rfl,
        show parseParamsLoop
            (Token.comma :: Token.attr b :: (commaTail ys ++ Token.greater :: tail)) acc
          = parseParamsLoop (commaTail ys ++ Token.greater :: tail) (acc ++ [b]) from rfl,
        parseParamsLoop_commaTail ys (acc ++ [b]) tail]
    simp

/-- Whatever the parameter loop returns extends the accumulator it was
started with. -/
theorem parseParamsLoop_acc :
    ∀ (ts : List Token) (acc ps : List Attribute) (rem : List Token),
    parseParamsLoop ts acc = some (ps, rem) → ∃ suffix, ps = acc ++ suffix
  | Token.greater :: rest, acc, ps, rem, h => by
    rw [show parseParamsLoop (Token.greater :: rest) acc = some (acc, rest) from rfl] at h
    simp only [Option.some.injEq, Prod.mk.injEq] at h
    refine ⟨[], ?_⟩
    rw [← h.1]
    simp
  | Token.comma :: Token.attr a :: rest, acc, ps, rem, h => by
    rw [show parseParamsLoop (Token.comma :: Token.attr a :: rest) acc
          = parseParamsLoop rest (acc ++ [a]) from rfl] at h
    obtain ⟨suffix, hs⟩ := parseParamsLoop_acc rest (acc ++ [a]) ps rem h
    refine ⟨a :: suffix, ?_⟩
    rw [hs]
    simp
  | [], _, _, _, h => by
    rw [show parseParamsLoop [] _ = none from rfl] at h
    exact Option.noConfusion h
  | [Token.comma], _, _, _, h => by
    rw [show parseParamsLoop [Token.comma] _ = none from rfl] at h
    exact Option.noConfusion h
  | Token.comma :: Token.greater :: _, _, _, _, h => by
    rw [show parseParamsLoop (Token.comma :: Token.greater :: _) _ = none from rfl] at h
    exact Option.noConfusion h
  | Token.comma :: Token.comma :: _, _, _, _, h => by
    rw [show parseParamsLoop (Token.comma :: Token.comma :: _) _ = none from rfl] at h
    exact Option.noConfusion h
  | Token.comma :: Token.less :: _, _, _, _, h => by
    rw [show parseParamsLoop (Token.comma :: Token.less :: _) _ = none from rfl] at h
    exact Option.noConfusion h
  | Token.comma :: Token.ident _ :: _, _, _, _, h => by
    rw [show parseParamsLoop (Token.comma :: Token.ident _ :: _) _ = none from rfl] at h
    exact Option.noConfusion h
  | Token.less :: _, _, _, _, h => by
    rw [show parseParamsLoop (Token.less :: _) _ = none from rfl] at h
    exact Option.noConfusion h
  | Token.attr _ :: _, _, _, _, h => by
    rw [show parseParamsLoop (Token.attr _ :: _) _ = none from rfl] at h
    exact Option.noConfusion h
  | Token.ident _ :: _, _, _, _, h => by
    rw [show parseParamsLoop (Token.ident _ :: _) _ = none from rfl] at h
    exact Option.noConfusion h

/-- C4 counterexample: on the stream `< >` — whose next token IS the
begin-parameter-list delimiter — the default type parse hook succeeds with
an EMPTY parameter list, instead of parsing at least one attribute value as
the claim states. -/
theorem defaultTypeParseFn_counterexample :
    defaultTypeParseFn [Token.less, Token.greater] = some ([], []) := rfl

/-- C4 (amended): the default type parse hook returns an empty ParamList,
consuming nothing, when the next token is not `<`; it also returns an empty
ParamList when `<` is immediately followed by `>` (consuming both); in every
other `<`-led case a successful parse carries at least one attribute, and
primitive parse failures propagate as parse errors. -/
theorem defaultTypeParseFn_amended (toks : List Token) :
    (toks.head? ≠ some Token.less → defaultTypeParseFn toks = some ([], toks)) ∧
    (∀ rest, toks = Token.less :: Token.greater :: rest →
      defaultTypeParseFn toks = some ([], rest)) ∧
    (∀ rest ps rem, toks = Token.less :: rest →
      rest.head? ≠ some Token.greater →
      defaultTypeParseFn toks = some (ps, rem) → 1 ≤ ps.length) := by
  refine ⟨?_, ?_, ?_⟩
  · intro h
    cases toks with
    | nil => rfl
    | cons t rest =>
      cases t with
      | less => exact absurd rfl h
      | greater => rfl
      | comma => rfl
      | attr a => rfl
      | ident s => rfl
  · intro rest h
    subst h
    rfl
  · intro rest ps rem htoks hhd hparse
    subst htoks
    cases rest with
    | nil =>
      rw [show defaultTypeParseFn [Token.less] = none from rfl] at hparse
      exact Option.noConfusion hparse
    | cons t2 r2 =>
      cases t2 with
      | greater => exact absurd rfl hhd
      | attr a =>
        rw [show defaultTypeParseFn (Token.less :: Token.attr a :: r2)
              = parseParamsLoop r2 [a] from rfl] at hparse
        obtain ⟨suffix, hs⟩ := parseParamsLoop_acc r2 [a] ps rem hparse
        rw [hs]
        simp
      | less =>
        rw [show defaultTypeParseFn (Token.less :: Token.less :: r2) = none from rfl] at hparse
        exact Option.noConfusion hparse
      | comma =>
        rw [show defaultTypeParseFn (Token.less :: Token.comma :: r2) = none from rfl] at hparse
        exact Option.noConfusion hparse
      | ident s2 =>
        rw [show defaultTypeParseFn (Token.less :: Token.ident s2 :: r2) = none from rfl] at hparse
        exact Option.noConfusion hparse

/-- Witness for C4 (amended): a non-`<` stream yields no parameters and
consumes nothing; `< >` yields no parameters; `< 5 >` yields one. -/
theorem defaultTypeParseFn_amended_witness :
    defaultTypeParseFn [Token.attr 7] = some ([], [Token.attr 7]) ∧
    defaultTypeParseFn [Token.less, Token.greater, Token.comma] = some ([], [Token.comma]) ∧
    1 ≤ ([5] : List Attribute).length :=
  ⟨(defaultTypeParseFn_amended [Token.attr 7]).1 (by decide),
   (defaultTypeParseFn_amended [Token.less, Token.greater, Token.comma]).2.1
     [Token.comma] rfl,
   (defaultTypeParseFn_amended [Token.less, Token.attr 5, Token.greater]).2.2
     [Token.attr 5, Token.greater] [5] [] rfl (by decide) rfl⟩

/-- The default print hook and the default parse hook are mutually inverse:
parsing the printed form of any parameter list recovers it exactly,
consuming the whole printed stream. -/
theorem defaultHooks_inverse (ps : List Attribute) :
    defaultTypeParseFn (defaultTypePrintFn ps) = some (ps, []) := by
  cases ps with
  | nil => rfl
  | cons a xs =>
    rw [show defaultTypePrintFn (a :: xs)
          = Token.less :: (interleaveComma (a :: xs) ++ [Token.greater]) from rfl,
        interleaveComma_eq xs a,
        show (Token.attr a :: commaTail xs) ++ [Token.greater]
          = Token.attr a :: (commaTail xs ++ Token.greater :: []) from rfl,
        show defaultTypeParseFn
            (Token.less :: Token.attr a :: (commaTail xs ++ Token.greater :: []))
          = parseParamsLoop (commaTail xs ++ Token.greater :: []) [a] from rfl,
        parseParamsLoop_commaTail xs [a] []]
    simp

/-- C5: for a definition carrying the default parse and print hooks whose
verifier accepts `ps`, printing an instance emits the definition's name and
the default-printed parameter text, and re-parsing that text through the
dialect (which resolves the printed name back to the definition) returns
exactly the original canonical instance — covering the zero-parameter form
(bare name) and the multi-parameter form alike. -/
theorem dynamicType_roundTrip (d : DynamicTypeDefinition) (ps : List Attribute)
    (s : InternerState) (e : Dialect)
    (hp : d.parser = defaultTypeParseFn) (hpr : d.printer = defaultTypePrintFn)
    (hv : d.verifier ps = true)
    (he : ExtensibleDialect.lookupTypeDefinition e d.name = some d) :
    DynamicType.print d ps = Token.ident d.name :: defaultTypePrintFn ps ∧
    ExtensibleDialect.parseOptionalDynamicType e d.name (defaultTypePrintFn ps)
        (DynamicType.get d ps s).2 =
      OptParse.ok (some (DynamicType.get d ps s).1) [] (DynamicType.get d ps s).2 := by
  constructor
  · rw [DynamicType.print, hpr]
  · have hidem := internerGet_idem s (d.typeID, ps)
    simp only [ExtensibleDialect.parseOptionalDynamicType, he, DynamicType.parse, hp,
      defaultHooks_inverse, DynamicType.getChecked, hv, if_true, DynamicType.get, hidem]

/-- The dialect `dyn` with the type `vec` registered: exactly the record
`addDynamicType` produces from a fresh extensible dialect. -/
def regDialect : Dialect :=
  { name := "dyn", interfaces := ["IsExtensibleDialect"],
    dynTypes := [(vecDef.typeID, vecDef)],
    nameToDynTypes := [(vecDef.name, vecDef)] }

/-- Witness for C5: in the dialect with `vec` registered, both `vec` (no
parameters) and `vec<7, 8, 9>` round-trip to the original instance. -/
theorem dynamicType_roundTrip_witness :
    (DynamicType.print vecDef [] = Token.ident vecDef.name :: defaultTypePrintFn [] ∧
     ExtensibleDialect.parseOptionalDynamicType regDialect vecDef.name
        (defaultTypePrintFn []) (DynamicType.get vecDef [] InternerState.empty).2 =
      OptParse.ok (some (DynamicType.get vecDef [] InternerState.empty).1) []
        (DynamicType.get vecDef [] InternerState.empty).2) ∧
    (DynamicType.print vecDef [7, 8, 9] =
        Token.ident vecDef.name :: defaultTypePrintFn [7, 8, 9] ∧
     ExtensibleDialect.parseOptionalDynamicType regDialect vecDef.name
        (defaultTypePrintFn [7, 8, 9])
        (DynamicType.get vecDef [7, 8, 9] InternerState.empty).2 =
      OptParse.ok (some (DynamicType.get vecDef [7, 8, 9] InternerState.empty).1) []
        (DynamicType.get vecDef [7, 8, 9] InternerState.empty).2) :=
  ⟨dynamicType_roundTrip vecDef [] InternerState.empty regDialect rfl rfl rfl rfl,
   dynamicType_roundTrip vecDef [7, 8, 9] InternerState.empty regDialect rfl rfl rfl rfl⟩

/-- C6: an operation definition created through the verifier-only
constructor fails every parse attempt, the hook returning failure after
emitting exactly the explicit, non-empty "defines no parser" diagnostic,
while its print hook produces the generic structural dump for every
operation, without error. -/
theorem dynamicOp_default_hooks (nm dlct : String) (vf : Nat → Bool)
    (tid : Nat) (toks : List Token) (op : Nat) :
    ((DynamicOpDefinition.get nm dlct vf tid).parseFn toks).2 = none ∧
    ((DynamicOpDefinition.get nm dlct vf tid).parseFn toks).1 =
      ["dynamic operation do not define any parser function"] ∧
    ((DynamicOpDefinition.get nm dlct vf tid).parseFn toks).1 ≠ [] ∧
    (DynamicOpDefinition.get nm dlct vf tid).printFn op = printGenericOp op := by
  refine ⟨rfl, rfl, ?_, rfl⟩
  rw [show ((DynamicOpDefinition.get nm dlct vf tid).parseFn toks).1
        = ["dynamic operation do not define any parser function"] from rfl]
  simp

/-- C7 counterexample: the verifier-only `DynamicOpDefinition::get` overload
constructs a definition from the dotted unqualified name `a.b` without any
fatal precondition violation (only the five-argument overload asserts), and
stores the doubly-dotted qualified name. -/
theorem dynamicOp_dotted_name_counterexample :
    (strContains "a.b" '.' = true) ∧
    (DynamicOpDefinition.get "a.b" "foo" (fun _op => true) 0).name = "foo.a.b" :=
  ⟨by decide, rfl⟩

/-- C7 (amended): the stored fully-qualified name is computed once, at
construction, as `namespace ++ "." ++ name` on every construction path; the
five-argument `get` overload rejects (fatal precondition violation) an
unqualified name containing the separator and constructs otherwise; the
verifier-only overload performs no separator check. -/
theorem dynamicOp_qualified_name (nm dlct : String) (vf : Nat → Bool)
    (pf : List Token → List String × Option Unit) (prf : Nat → PrintOut)
    (tid : Nat) :
    (DynamicOpDefinition.ctor nm dlct vf pf prf tid).name = dlct ++ "." ++ nm ∧
    (DynamicOpDefinition.get nm dlct vf tid).name = dlct ++ "." ++ nm ∧
    (strContains nm '.' = true →
      DynamicOpDefinition.get5 nm dlct vf pf prf tid = none) ∧
    (strContains nm '.' = false →
      DynamicOpDefinition.get5 nm dlct vf pf prf tid =
        some (DynamicOpDefinition.ctor nm dlct vf pf prf tid)) := by
  refine ⟨rfl, rfl, ?_, ?_⟩
  · intro h
    simp [DynamicOpDefinition.get5, h]
  · intro h
    simp [DynamicOpDefinition.get5, h]

/-- Witness for C7 (amended): the five-argument overload rejects `a.b` and
accepts `ab`. -/
theorem dynamicOp_qualified_name_witness :
    DynamicOpDefinition.get5 "a.b" "foo" (fun _op => true)
      defaultOpParseFn defaultOpPrintFn 0 = none ∧
    DynamicOpDefinition.get5 "ab" "foo" (fun _op => true)
      defaultOpParseFn defaultOpPrintFn 0 =
      some (DynamicOpDefinition.ctor "ab" "foo" (fun _op => true)
        defaultOpParseFn defaultOpPrintFn 0) :=
  ⟨(dynamicOp_qualified_name "a.b" "foo" (fun _op => true)
      defaultOpParseFn defaultOpPrintFn 0).2.2.1 (by decide),
   (dynamicOp_qualified_name "ab" "foo" (fun _op => true)
      defaultOpParseFn defaultOpPrintFn 0).2.2.2 (by decide)⟩

/-- C8: `addDynamicType` hits a fatal precondition violation whenever the
definition's stated dialect differs from the registering one, or its TypeID
collides with a registered TypeID, or its name collides with a registered
name in that namespace; with the correct owner and no collision it succeeds
and the definition becomes indexed both by TypeID and by name. -/
theorem addDynamicType_guards (d : Dialect) (t : DynamicTypeDefinition) :
    ((t.dialect ≠ d.name ∨ (lookupKey t.typeID d.dynTypes).isSome = true ∨
        (lookupKey t.name d.nameToDynTypes).isSome = true) →
      ExtensibleDialect.addDynamicType d t = none) ∧
    (t.dialect = d.name → lookupKey t.typeID d.dynTypes = none →
      lookupKey t.name d.nameToDynTypes = none →
      ∃ d2, ExtensibleDialect.addDynamicType d t = some d2 ∧
        lookupKey t.typeID d2.dynTypes = some t ∧
        lookupKey t.name d2.nameToDynTypes = some t) := by
  constructor
  · intro h
    by_cases h1 : t.dialect = d.name
    · by_cases h2 : (lookupKey t.typeID d.dynTypes).isSome = true
      · simp [ExtensibleDialect.addDynamicType, h1, h2]
      · rcases h with h | h | h
        · exact absurd h1 h
        · exact absurd h h2
        · simp [ExtensibleDialect.addDynamicType, h1, h2, h]
    · simp [ExtensibleDialect.addDynamicType, h1]
  · intro h1 h2 h3
    unfold ExtensibleDialect.addDynamicType
    rw [if_neg (by simp [h1]), if_neg (by simp [h2]), if_neg (by simp [h3])]
    exact ⟨_, rfl, by simp [lookupKey], by simp [lookupKey]⟩

/-- Witness for C8: registering `vec` into a fresh `dyn` dialect succeeds
and the definition is found under its TypeID and its name. -/
theorem addDynamicType_guards_witness :
    ∃ d2, ExtensibleDialect.addDynamicType (ExtensibleDialect.new "dyn") vecDef = some d2 ∧
      lookupKey vecDef.typeID d2.dynTypes = some vecDef ∧
      lookupKey vecDef.name d2.nameToDynTypes = some vecDef :=
  (addDynamicType_guards (ExtensibleDialect.new "dyn") vecDef).2 rfl rfl rfl

/-- C9 counterexample: printing a `vec` instance of dialect `dyn` writes the
UNQUALIFIED name `vec` first, not the namespace-qualified `dyn.vec` the
claim states. -/
theorem dynamicType_print_counterexample :
    (DynamicType.print vecDef []).head? = some (Token.ident "vec") ∧
    Token.ident "vec" ≠ Token.ident (vecDef.dialect ++ "." ++ vecDef.name) :=
  ⟨rfl, by decide⟩

/-- C9 (amended): `Instance::print` first writes the UNQUALIFIED name of the
instance's kind (namespace qualification is the enclosing dialect printer's
responsibility) and then invokes the definition's print hook on the
instance's parameter list. -/
theorem dynamicType_print_amended (d : DynamicTypeDefinition)
    (ps : List Attribute) :
    DynamicType.print d ps = Token.ident d.name :: d.printer ps := rfl

/-- C10: a freshly constructed ExtensibleDialect already carries the
IsExtensibleDialect capability marker, so `classof` holds for it before any
dynamic type or operation is registered; registering a dynamic type or a
dynamic operation leaves the marker, hence `classof`, unchanged. -/
theorem extensibleDialect_marker (nm : String) :
    ExtensibleDialect.classof (ExtensibleDialect.new nm) = true ∧
    (∀ d t d2, ExtensibleDialect.addDynamicType d t = some d2 →
      ExtensibleDialect.classof d2 = ExtensibleDialect.classof d) ∧
    (∀ d t d2, ExtensibleDialect.addDynamicOp d t = some d2 →
      ExtensibleDialect.classof d2 = ExtensibleDialect.classof d) := by
  refine ⟨rfl, ?_, ?_⟩
  · intro d t d2 h
    unfold ExtensibleDialect.addDynamicType at h
    split at h
    · exact Option.noConfusion h
    · split at h
      · exact Option.noConfusion h
      · split at h
        · exact Option.noConfusion h
        · injection h with h
          subst h
          rfl
  · intro d t d2 h
    unfold ExtensibleDialect.addDynamicOp at h
    split at h
    · exact Option.noConfusion h
    · injection h with h
      subst h
      rfl

/-- Witness for C10: the fresh `dyn` dialect satisfies `classof`, and after
registering `vec` the `classof` answer is unchanged. -/
theorem extensibleDialect_marker_witness :
    ExtensibleDialect.classof (ExtensibleDialect.new "dyn") = true ∧
    ExtensibleDialect.classof regDialect =
      ExtensibleDialect.classof (ExtensibleDialect.new "dyn") :=
  ⟨(extensibleDialect_marker "dyn").1,
   (extensibleDialect_marker "dyn").2.1 (ExtensibleDialect.new "dyn") vecDef regDialect rfl⟩
